import Mathlib

/-!
Verification of the coral-counts reconciliation engine.

The definitions below are a shallow embedding of the Go source:

* `Comment`, `CommentStatusCounts`, `CommentModerationQueue`,
  `StoryCommentCounts` and their `Increment`/`Merge` operations embed
  `counts/comment.go`, `counts/counts.go` and `counts/stories.go`.
  Go `int` counters are modelled as `Int`; a Go `map[string]int` used as
  an aggregate is modelled extensionally as `String → Int` (absent key
  reads as zero, matching `m[k] += v` semantics), while the comment's
  own `actionCounts` map is kept as an association list so that the
  two-valued lookup `count, ok := m["FLAG"]` is represented exactly.
* `dirtyFold`, `dirtyOf`, `watcherDirty` embed `Watcher.Dirty`.
* `runLoop`, `runTrace` embed the convergence loop of `run` in `main.go`.
* `flushBatches` embeds the batch-write loop of `ProcessStories` /
  `ProcessUsers`; `processStoriesModel` / `processUsersModel` embed the
  whole scan passes over a list of decode results plus a possible
  cursor-iteration error.
-/

/-- A comment record, from `counts/comment.go`.  `actionCounts` is kept as
an association list to preserve key presence. -/
structure Comment where
  authorID : String
  storyID : String
  status : String
  actionCounts : List (String × Int)
deriving DecidableEq, Inhabited

/-- The five per-status counters, from `counts/counts.go`. -/
@[ext]
structure CommentStatusCounts where
  approved : Int
  none : Int
  premod : Int
  rejected : Int
  systemWithheld : Int
deriving DecidableEq

/-- `CommentStatusCounts.Increment` from `counts/counts.go` lines 11-24:
exactly one of the five counters increments, selected by `status`;
unrecognized statuses fall through the `switch` and change nothing. -/
def CommentStatusCounts.Increment (csc : CommentStatusCounts) (c : Comment) :
    CommentStatusCounts :=
  match c.status with
  | "APPROVED" => { csc with approved := csc.approved + 1 }
  | "NONE" => { csc with none := csc.none + 1 }
  | "PREMOD" => { csc with premod := csc.premod + 1 }
  | "REJECTED" => { csc with rejected := csc.rejected + 1 }
  | "SYSTEM_WITHHELD" => { csc with systemWithheld := csc.systemWithheld + 1 }
  | _ => csc

/-- The inner `queues` struct of `CommentModerationQueue`. -/
@[ext]
structure ModerationQueues where
  unmoderated : Int
  reported : Int
  pending : Int
deriving DecidableEq

/-- `CommentModerationQueue` from `counts/counts.go`. -/
@[ext]
structure CommentModerationQueue where
  total : Int
  queues : ModerationQueues
deriving DecidableEq

/-- The `count, ok := comment.ActionCounts["FLAG"]; ok && count > 0` test
from `counts/counts.go` line 43. -/
def Comment.flagged (c : Comment) : Bool :=
  match c.actionCounts.lookup "FLAG" with
  | some count => count > 0
  | none => false

/-- `CommentModerationQueue.Increment` from `counts/counts.go` lines 35-55. -/
def CommentModerationQueue.Increment (cmq : CommentModerationQueue)
    (c : Comment) : CommentModerationQueue :=
  match c.status with
  | "NONE" =>
    { total := cmq.total + 1
      queues :=
        { cmq.queues with
          unmoderated := cmq.queues.unmoderated + 1
          reported :=
            if c.flagged then cmq.queues.reported + 1 else cmq.queues.reported } }
  | "PREMOD" =>
    { total := cmq.total + 1
      queues :=
        { cmq.queues with
          unmoderated := cmq.queues.unmoderated + 1
          pending := cmq.queues.pending + 1 } }
  | "SYSTEM_WITHHELD" =>
    { total := cmq.total + 1
      queues :=
        { cmq.queues with
          unmoderated := cmq.queues.unmoderated + 1
          pending := cmq.queues.pending + 1 } }
  | _ => cmq

/-- A Go `map[string]int` aggregate, viewed extensionally: absent keys read
as zero, exactly the value `m[k]` yields in Go. -/
abbrev CommentActionCounts := String → Int

/-- Pointwise update `m[key] += count` on an extensional map. -/
def actionAdd (m : CommentActionCounts) (key : String) (count : Int) :
    CommentActionCounts :=
  fun k => if k = key then m key + count else m k

/-- `CommentActionCounts.Increment` from `counts/counts.go` lines 59-63:
`for key, count := range comment.ActionCounts { cac[key] += count }`. -/
def CommentActionCounts.Increment (cac : CommentActionCounts) (c : Comment) :
    CommentActionCounts :=
  c.actionCounts.foldl (fun m kv => actionAdd m kv.1 kv.2) cac

/-- `StoryCommentCounts` from `counts/stories.go`. -/
@[ext]
structure StoryCommentCounts where
  action : CommentActionCounts
  status : CommentStatusCounts
  moderationQueue : CommentModerationQueue

/-- `StoryCommentCounts.Merge` from `counts/stories.go` lines 21-39:
element-wise addition of every counter, with the two action maps merged
by `scc.Action[key] += count` over the argument's entries. -/
def StoryCommentCounts.Merge (scc counts : StoryCommentCounts) :
    StoryCommentCounts :=
  { action := fun k => scc.action k + counts.action k
    status :=
      { approved := scc.status.approved + counts.status.approved
        none := scc.status.none + counts.status.none
        premod := scc.status.premod + counts.status.premod
        rejected := scc.status.rejected + counts.status.rejected
        systemWithheld := scc.status.systemWithheld + counts.status.systemWithheld }
    moderationQueue :=
      { total := scc.moderationQueue.total + counts.moderationQueue.total
        queues :=
          { unmoderated :=
              scc.moderationQueue.queues.unmoderated +
                counts.moderationQueue.queues.unmoderated
            reported :=
              scc.moderationQueue.queues.reported +
                counts.moderationQueue.queues.reported
            pending :=
              scc.moderationQueue.queues.pending +
                counts.moderationQueue.queues.pending } } }

/-- `Story.Increment` from `counts/stories.go` lines 48-57, acting on the
story's `CommentCounts`: action, then status, then moderation queue. -/
def StoryCommentCounts.Increment (scc : StoryCommentCounts) (c : Comment) :
    StoryCommentCounts :=
  { action := scc.action.Increment c
    status := scc.status.Increment c
    moderationQueue := scc.moderationQueue.Increment c }

/-- The zero-valued `CommentStatusCounts` of a fresh Go struct. -/
def zeroStatusCounts : CommentStatusCounts :=
  { approved := 0, none := 0, premod := 0, rejected := 0, systemWithheld := 0 }

/-- The zero-valued `CommentModerationQueue` of a fresh Go struct. -/
def zeroModerationQueue : CommentModerationQueue :=
  { total := 0, queues := { unmoderated := 0, reported := 0, pending := 0 } }

/-- The `&Story{}` plus `make(map[string]int)` initialization of
`ProcessStories` (`counts/stories.go` lines 120-123). -/
def zeroStoryCounts : StoryCommentCounts :=
  { action := fun _ => 0
    status := zeroStatusCounts
    moderationQueue := zeroModerationQueue }

/-- The `fullDocument` sub-struct of `WatchEvent` (watcher source). A field
missing from the mutated document decodes to the Go zero value `""`. -/
structure WatchEventDocument where
  id : String
  authorID : String
  storyID : String
deriving DecidableEq, Inhabited

/-- `WatchEvent` from the watcher source: one buffered change-feed event. -/
structure WatchEvent where
  operationType : String
  fullDocument : WatchEventDocument
deriving DecidableEq, Inhabited

/-- `DirtyKeys` from the watcher source. -/
structure DirtyKeys where
  storyIDs : List String
  userIDs : List String
deriving DecidableEq, Inhabited

/-- The event loop of `Watcher.Dirty` (watcher source lines 149-172): one
pass over the buffered events, accumulating the story ids and the author
ids not seen before.  The Go `storyIDMap`/`userIDMap` seen-sets always
hold exactly the keys already appended, so they are represented by
membership in the accumulated lists. -/
def dirtyFold : List WatchEvent → List String → List String → DirtyKeys
  | [], storyIDs, userIDs => { storyIDs := storyIDs, userIDs := userIDs }
  | e :: rest, storyIDs, userIDs =>
    dirtyFold rest
      (if storyIDs.contains e.fullDocument.storyID then storyIDs
       else storyIDs ++ [e.fullDocument.storyID])
      (if userIDs.contains e.fullDocument.authorID then userIDs
       else userIDs ++ [e.fullDocument.authorID])

/-- The result of `Watcher.Dirty` as a function of the buffered events
(watcher source lines 139-177): `nil` when the buffer is empty, otherwise
the deduplicated keys. -/
def dirtyOf (events : List WatchEvent) : Option DirtyKeys :=
  if events.isEmpty then none else some (dirtyFold events [] [])

/-- `Watcher.Dirty` as a transition on the buffer state: it returns the
dirty keys (if any) and leaves the buffer reset to the empty slice. -/
def watcherDirty (events : List WatchEvent) :
    Option DirtyKeys × List WatchEvent :=
  (dirtyOf events, [])

/-- Modelled from the spec: deduplication of one id list on its own,
keeping the order of first appearance (`seen` accumulates the output). -/
def dedupFirst : List String → List String → List String
  | [], seen => seen
  | x :: rest, seen => dedupFirst rest (if seen.contains x then seen else seen ++ [x])

/-- One scheduled pass of the convergence loop in `run` (`main.go`).
`scanStories`/`scanUsers` carry the restriction actually applied by
`ProcessStories`/`ProcessUsers`: `none` when the id filter is empty
(unrestricted), `some ids` when the `$in` filter is added. -/
inductive Pass where
  | scanStories (restrictTo : Option (List String))
  | reduceSite
  | scanUsers (restrictTo : Option (List String))
deriving DecidableEq

/-- The `len(ids) > 0` filter construction of `ProcessStories` lines 71-81
(and the identical one in `ProcessUsers`): an empty id list means no
restriction. -/
def restrictionOf (ids : List String) : Option (List String) :=
  if 0 < ids.length then some ids else none

/-- The body of one iteration of the convergence loop in `run` (`main.go`
lines 136-153): the story scan and site reduction run only when
`len(dirty.StoryIDs) > 0`, the user scan only when `len(dirty.UserIDs) > 0`. -/
def loopBody (d : DirtyKeys) : List Pass :=
  (if 0 < d.storyIDs.length then
      [Pass.scanStories (restrictionOf d.storyIDs), Pass.reduceSite]
    else []) ++
  (if 0 < d.userIDs.length then [Pass.scanUsers (restrictionOf d.userIDs)]
    else [])

/-- The convergence loop of `run` (`main.go` lines 122-154), driven by the
successive buffer contents seen by each `Dirty` call: stop on the first
empty drain, otherwise run the loop body and drain again.  An exhausted
list stands for a buffer that stays empty from then on. -/
def runLoop : List (List WatchEvent) → List Pass
  | [] => []
  | b :: rest =>
    match dirtyOf b with
    | none => []
    | some d => loopBody d ++ runLoop rest

/-- The pass sequence of `run` (`main.go` lines 104-154): one full pass —
stories unrestricted, site, users unrestricted — then the convergence
loop. -/
def runTrace (bufs : List (List WatchEvent)) : List Pass :=
  [Pass.scanStories (restrictionOf []), Pass.reduceSite,
    Pass.scanUsers (restrictionOf [])] ++ runLoop bufs

/-- Modelled from the spec: each non-empty drain is followed by the story
scan restricted to exactly the drained story ids, a full site reduction,
and the user scan restricted to exactly the drained user ids. -/
def runLoopSpec : List (List WatchEvent) → List Pass
  | [] => []
  | b :: rest =>
    match dirtyOf b with
    | none => []
    | some d =>
      [Pass.scanStories (some d.storyIDs), Pass.reduceSite,
        Pass.scanUsers (some d.userIDs)] ++ runLoopSpec rest

/-- Modelled from the spec: the full first pass followed by the
spec-side convergence loop. -/
def runTraceSpec (bufs : List (List WatchEvent)) : List Pass :=
  [Pass.scanStories none, Pass.reduceSite, Pass.scanUsers none] ++
    runLoopSpec bufs

/-- Sum of the five status counters, used to state the counting invariant. -/
def statusSum (csc : CommentStatusCounts) : Int :=
  csc.approved + csc.none + csc.premod + csc.rejected + csc.systemWithheld

/-- Whether a status string is one of the five cases of the Go `switch` in
`CommentStatusCounts.Increment`. -/
def recognizedStatus (s : String) : Bool :=
  ["APPROVED", "NONE", "PREMOD", "REJECTED", "SYSTEM_WITHHELD"].contains s

/-- The counter states reachable from the zero aggregate by any sequence of
comment increments (`Story.Increment`) and merges with other reachable
aggregates (`StoryCommentCounts.Merge`). -/
inductive ReachableCounts : StoryCommentCounts → Prop where
  | zero : ReachableCounts zeroStoryCounts
  | increment {s : StoryCommentCounts} (c : Comment) :
      ReachableCounts s → ReachableCounts (s.Increment c)
  | merge {a b : StoryCommentCounts} :
      ReachableCounts a → ReachableCounts b → ReachableCounts (a.Merge b)

/-- The batch-accumulation loop of `ProcessStories` lines 144-217 (and the
identical one in `ProcessUsers`): append each update to the pending batch,
flush once `len(updates) >= MaxBatchWriteSize`, and flush any leftover
after the loop.  Returns the list of flushed batches in order. -/
def flushBatchesGo (N : Nat) : List α → List α → List (List α)
  | [], acc => if acc.isEmpty then [] else [acc]
  | u :: rest, acc =>
    if N ≤ (acc ++ [u]).length then (acc ++ [u]) :: flushBatchesGo N rest []
    else flushBatchesGo N rest (acc ++ [u])

/-- The batch writer over a whole update stream, starting from an empty
pending batch. -/
def flushBatches (N : Nat) (updates : List α) : List (List α) :=
  flushBatchesGo N updates []

/-- Whether a cursor record fails to decode. -/
def isDecodeError : Except String Comment → Bool
  | .error _ => true
  | .ok _ => false

/-- The decode loop of a scan pass (`for cursor.Next { cursor.Decode }`):
the first decode failure aborts with that error. -/
def decodeAll : List (Except String Comment) → Except String (List Comment)
  | [] => .ok []
  | .error e :: _ => .error e
  | .ok c :: rest =>
    match decodeAll rest with
    | .error e => .error e
    | .ok cs => .ok (c :: cs)

/-- Replace the value stored under `key` in an association list, keeping
insertion order. -/
def setEntry : List (String × α) → String → α → List (String × α)
  | [], _, _ => []
  | (k, v) :: rest, key, a =>
    if k == key then (k, a) :: rest else (k, v) :: setEntry rest key a

/-- The aggregation step of `ProcessStories` lines 117-127: look the story
up by `comment.StoryID`, lazily inserting a zero-valued story, then
increment it with the comment.  The Go map is kept as an association
list in insertion order. -/
def foldStory (stories : List (String × StoryCommentCounts)) (c : Comment) :
    List (String × StoryCommentCounts) :=
  match stories.lookup c.storyID with
  | some scc => setEntry stories c.storyID (scc.Increment c)
  | none => stories ++ [(c.storyID, zeroStoryCounts.Increment c)]

/-- The aggregation step of `ProcessUsers` lines 90-98: keyed by
`comment.AuthorID`, tracking only the status counters. -/
def foldUser (users : List (String × CommentStatusCounts)) (c : Comment) :
    List (String × CommentStatusCounts) :=
  match users.lookup c.authorID with
  | some csc => setEntry users c.authorID (csc.Increment c)
  | none => users ++ [(c.authorID, zeroStatusCounts.Increment c)]

/-- `ProcessStories` (`counts/stories.go` lines 62-220) over one pass:
`records` are the documents the cursor delivered (each possibly failing
to decode) and `cursorErr` a possible iteration error reported by
`cursor.Err()` after the read loop.  Result: the batches actually sent
to the sink, and the error returned to the caller.  A decode failure
returns before the write phase; `cursor.Err()` is checked next; only
then are updates accumulated and flushed (skipped when `dryRun`). -/
def processStoriesModel (records : List (Except String Comment))
    (cursorErr : Option String) (N : Nat) (dryRun : Bool) :
    List (List (String × StoryCommentCounts)) × Option String :=
  match decodeAll records with
  | .error e => ([], some e)
  | .ok comments =>
    match cursorErr with
    | some e => ([], some e)
    | none =>
      if dryRun then ([], none)
      else (flushBatches N (comments.foldl foldStory []), none)

/-- `ProcessUsers` (`counts/comment.go` lines 36-186) over one pass.
Faithful to the source: unlike `ProcessStories` and `ProcessSite`, the
function has no `cursor.Err()` check after its read loop, so the
`cursorErr` argument is never consulted. -/
def processUsersModel (records : List (Except String Comment))
    (cursorErr : Option String) (N : Nat) (dryRun : Bool) :
    List (List (String × CommentStatusCounts)) × Option String :=
  match decodeAll records with
  | .error e => ([], some e)
  | .ok comments =>
    if dryRun then ([], none)
    else (flushBatches N (comments.foldl foldUser []), none)

/-- A sample buffer of change-feed events with repeated story and author
ids, used to instantiate the drain theorems. -/
def sampleBuffer : List WatchEvent :=
  [⟨"insert", ⟨"c1", "u1", "s1"⟩⟩,
    ⟨"update", ⟨"c2", "u2", "s1"⟩⟩,
    ⟨"insert", ⟨"c3", "u1", "s2"⟩⟩]

/-- The dirty keys produced by draining `sampleBuffer`. -/
def sampleDirty : DirtyKeys :=
  { storyIDs := ["s1", "s2"], userIDs := ["u1", "u2"] }

/-- A sample cursor stream whose second record fails to decode. -/
def sampleRecords : List (Except String Comment) :=
  [Except.ok ⟨"u1", "s1", "NONE", []⟩,
    Except.error "could not decode result",
    Except.ok ⟨"u2", "s1", "APPROVED", []⟩]

theorem dirtyFold_storyIDs_le (evs : List WatchEvent) :
    ∀ ss us : List String, ss.length ≤ (dirtyFold evs ss us).storyIDs.length := by
  induction evs with
  | nil => intro ss us; simp [dirtyFold]
  | cons e rest ih =>
    intro ss us
    simp only [dirtyFold]
    refine le_trans ?_ (ih _ _)
    split <;> simp

theorem dirtyFold_userIDs_le (evs : List WatchEvent) :
    ∀ ss us : List String, us.length ≤ (dirtyFold evs ss us).userIDs.length := by
  induction evs with
  | nil => intro ss us; simp [dirtyFold]
  | cons e rest ih =>
    intro ss us
    simp only [dirtyFold]
    refine le_trans ?_ (ih _ _)
    split <;> simp

theorem dirtyOf_nonempty {b : List WatchEvent} {d : DirtyKeys}
    (h : dirtyOf b = some d) :
    0 < d.storyIDs.length ∧ 0 < d.userIDs.length := by
  match b with
  | [] => simp [dirtyOf] at h
  | e :: rest =>
    simp only [dirtyOf, List.isEmpty_cons, Bool.false_eq_true, if_false,
      Option.some.injEq] at h
    subst h
    constructor
    · simpa [dirtyFold] using dirtyFold_storyIDs_le rest
        [e.fullDocument.storyID] [e.fullDocument.authorID]
    · simpa [dirtyFold] using dirtyFold_userIDs_le rest
        [e.fullDocument.storyID] [e.fullDocument.authorID]

theorem runLoop_eq_runLoopSpec (bufs : List (List WatchEvent)) :
    runLoop bufs = runLoopSpec bufs := by
  induction bufs with
  | nil => rfl
  | cons b rest ih =>
    simp only [runLoop, runLoopSpec]
    cases h : dirtyOf b with
    | none => rfl
    | some d =>
      obtain ⟨hs, hu⟩ := dirtyOf_nonempty h
      simp [loopBody, restrictionOf, hs, hu, ih]

/-- C1: with the watcher enabled, the run performs one full pass (story
scan unrestricted, then site reduction, then user scan unrestricted) and
then loops, draining the watcher, stopping on an empty drain, and
otherwise running the story scan restricted to exactly the drained story
ids, a full site reduction, and the user scan restricted to exactly the
drained user ids, before draining again. -/
theorem run_convergence_trace_matches_spec (bufs : List (List WatchEvent)) :
    runTrace bufs = runTraceSpec bufs := by
  simp [runTrace, runTraceSpec, restrictionOf, runLoop_eq_runLoopSpec]

/-- C10: whenever `Watcher.Dirty` returns a non-nil `DirtyKeys`, both the
story id list and the user id list are non-empty, so the convergence
loop's length guards never skip the story pass or the user pass. -/
theorem dirty_keys_nonempty_guards (b : List WatchEvent) (d : DirtyKeys)
    (h : (watcherDirty b).1 = some d) :
    0 < d.storyIDs.length ∧ 0 < d.userIDs.length ∧
      loopBody d = [Pass.scanStories (restrictionOf d.storyIDs),
        Pass.reduceSite, Pass.scanUsers (restrictionOf d.userIDs)] := by
  obtain ⟨hs, hu⟩ := dirtyOf_nonempty h
  exact ⟨hs, hu, by simp [loopBody, hs, hu]⟩

/-- Witness for C10 at the sample buffer. -/
theorem dirty_keys_nonempty_guards_witness :
    0 < sampleDirty.storyIDs.length ∧ 0 < sampleDirty.userIDs.length ∧
      loopBody sampleDirty = [Pass.scanStories (restrictionOf sampleDirty.storyIDs),
        Pass.reduceSite, Pass.scanUsers (restrictionOf sampleDirty.userIDs)] :=
  dirty_keys_nonempty_guards sampleBuffer sampleDirty (by decide)

theorem contains_iff_mem (l : List String) (x : String) :
    l.contains x = true ↔ x ∈ l := by
  simp [List.contains, List.elem_iff]

theorem dirtyFold_eq_dedupFirst (evs : List WatchEvent) :
    ∀ ss us : List String,
      dirtyFold evs ss us =
        { storyIDs := dedupFirst (evs.map fun e => e.fullDocument.storyID) ss
          userIDs := dedupFirst (evs.map fun e => e.fullDocument.authorID) us } := by
  induction evs with
  | nil => intro ss us; simp [dirtyFold, dedupFirst]
  | cons e rest ih => intro ss us; simp [dirtyFold, dedupFirst, ih]

theorem mem_dedupFirst (l : List String) :
    ∀ (seen : List String) (x : String),
      x ∈ dedupFirst l seen ↔ x ∈ l ∨ x ∈ seen := by
  induction l with
  | nil => intro seen x; simp [dedupFirst]
  | cons hd tl ih =>
    intro seen x
    simp only [dedupFirst]
    by_cases hc : seen.contains hd = true
    · rw [if_pos hc, ih]
      have hm : hd ∈ seen := (contains_iff_mem seen hd).1 hc
      constructor
      · rintro (h | h)
        · exact Or.inl (List.mem_cons_of_mem _ h)
        · exact Or.inr h
      · rintro (h | h)
        · rcases List.mem_cons.1 h with rfl | h
          · exact Or.inr hm
          · exact Or.inl h
        · exact Or.inr h
    · rw [if_neg hc, ih]
      simp only [List.mem_append, List.mem_singleton, List.mem_cons]
      tauto

theorem nodup_dedupFirst (l : List String) :
    ∀ seen : List String, seen.Nodup → (dedupFirst l seen).Nodup := by
  induction l with
  | nil => intro seen h; simpa [dedupFirst] using h
  | cons hd tl ih =>
    intro seen h
    simp only [dedupFirst]
    by_cases hc : seen.contains hd = true
    · rw [if_pos hc]; exact ih seen h
    · rw [if_neg hc]
      refine ih _ ?_
      have hm : hd ∉ seen := fun hmem => hc ((contains_iff_mem seen hd).2 hmem)
      simp [List.nodup_append, h, hm]

/-- C2: draining the watcher returns the buffered story ids and author ids
each deduplicated independently in order of first appearance, resets the
buffer to empty, yields `nil` exactly when the buffer is empty, and hence
yields `nil` on a second drain with no intervening events. -/
theorem watcher_dirty_drain_spec :
    (∀ b : List WatchEvent, (watcherDirty b).1 = none ↔ b = []) ∧
    (∀ (b : List WatchEvent) (d : DirtyKeys), (watcherDirty b).1 = some d →
      d.storyIDs = dedupFirst (b.map fun e => e.fullDocument.storyID) [] ∧
      d.userIDs = dedupFirst (b.map fun e => e.fullDocument.authorID) [] ∧
      d.storyIDs.Nodup ∧ d.userIDs.Nodup ∧
      (∀ s, s ∈ d.storyIDs ↔ s ∈ b.map fun e => e.fullDocument.storyID) ∧
      (∀ u, u ∈ d.userIDs ↔ u ∈ b.map fun e => e.fullDocument.authorID)) ∧
    (∀ b : List WatchEvent, (watcherDirty b).2 = []) ∧
    (∀ b : List WatchEvent, (watcherDirty (watcherDirty b).2).1 = none) := by
  refine ⟨?_, ?_, fun b => rfl, fun b => rfl⟩
  · intro b
    cases b with
    | nil => simp [watcherDirty, dirtyOf]
    | cons e rest => simp [watcherDirty, dirtyOf]
  · intro b d h
    have hb : b.isEmpty = false := by
      cases hb : b.isEmpty
      · rfl
      · simp [watcherDirty, dirtyOf, hb] at h
    have hd : d = dirtyFold b [] [] := by
      simp [watcherDirty, dirtyOf, hb] at h
      exact h.symm
    subst hd
    rw [dirtyFold_eq_dedupFirst]
    refine ⟨rfl, rfl, nodup_dedupFirst _ _ List.nodup_nil,
      nodup_dedupFirst _ _ List.nodup_nil, ?_, ?_⟩
    · intro s; rw [mem_dedupFirst]; simp
    · intro u; rw [mem_dedupFirst]; simp

/-- Witness for C2 at the sample buffer, which has repeated story and
author ids. -/
theorem watcher_dirty_drain_spec_witness :
    (watcherDirty sampleBuffer).2 = [] ∧
      (watcherDirty (watcherDirty sampleBuffer).2).1 = none ∧
      sampleDirty.storyIDs =
        dedupFirst (sampleBuffer.map fun e => e.fullDocument.storyID) [] ∧
      sampleDirty.userIDs =
        dedupFirst (sampleBuffer.map fun e => e.fullDocument.authorID) [] :=
  ⟨watcher_dirty_drain_spec.2.2.1 sampleBuffer,
    watcher_dirty_drain_spec.2.2.2 sampleBuffer,
    (watcher_dirty_drain_spec.2.1 sampleBuffer sampleDirty (by decide)).1,
    (watcher_dirty_drain_spec.2.1 sampleBuffer sampleDirty (by decide)).2.1⟩

/-- C3: the moderation-queue increment is determined by the status alone —
`NONE` increments total and unmoderated, plus reported iff the comment's
action counts contain `"FLAG"` with a positive value; `PREMOD` and
`SYSTEM_WITHHELD` increment total, unmoderated and pending; every other
status changes nothing; and the three example comments fold to
`{total 2, unmoderated 2, reported 1, pending 1}`. -/
theorem moderation_queue_increment_by_status :
    (∀ (q : CommentModerationQueue) (c : Comment), c.status = "NONE" →
      q.Increment c =
        { total := q.total + 1
          queues :=
            { unmoderated := q.queues.unmoderated + 1
              reported := q.queues.reported + (if c.flagged then 1 else 0)
              pending := q.queues.pending } }) ∧
    (∀ (q : CommentModerationQueue) (c : Comment), c.status = "PREMOD" →
      q.Increment c =
        { total := q.total + 1
          queues :=
            { unmoderated := q.queues.unmoderated + 1
              reported := q.queues.reported
              pending := q.queues.pending + 1 } }) ∧
    (∀ (q : CommentModerationQueue) (c : Comment), c.status = "SYSTEM_WITHHELD" →
      q.Increment c =
        { total := q.total + 1
          queues :=
            { unmoderated := q.queues.unmoderated + 1
              reported := q.queues.reported
              pending := q.queues.pending + 1 } }) ∧
    (∀ (q : CommentModerationQueue) (c : Comment), c.status ≠ "NONE" →
      c.status ≠ "PREMOD" → c.status ≠ "SYSTEM_WITHHELD" → q.Increment c = q) ∧
    (([(⟨"u1", "s1", "NONE", [("FLAG", 1)]⟩ : Comment),
        ⟨"u2", "s1", "PREMOD", []⟩,
        ⟨"u3", "s1", "APPROVED", []⟩].foldl
          StoryCommentCounts.Increment zeroStoryCounts).moderationQueue =
      { total := 2, queues := { unmoderated := 2, reported := 1, pending := 1 } }) := by
  refine ⟨?_, ?_, ?_, ?_, by decide⟩
  · intro q c h
    cases hf : c.flagged <;>
      simp [CommentModerationQueue.Increment, h, hf]
  · intro q c h
    simp [CommentModerationQueue.Increment, h]
  · intro q c h
    simp [CommentModerationQueue.Increment, h]
  · intro q c h1 h2 h3
    unfold CommentModerationQueue.Increment
    split
    next h => exact absurd h h1
    next h => exact absurd h h2
    next h => exact absurd h h3
    next => rfl

/-- Witness for C3: a flagged `NONE` comment and a `REJECTED` comment at a
concrete queue state. -/
theorem moderation_queue_increment_by_status_witness :
    (CommentModerationQueue.mk 5 ⟨5, 2, 1⟩).Increment
        ⟨"u", "s", "NONE", [("FLAG", 2)]⟩ =
      { total := 6, queues := { unmoderated := 6, reported := 3, pending := 1 } } ∧
    (CommentModerationQueue.mk 5 ⟨5, 2, 1⟩).Increment ⟨"u", "s", "REJECTED", []⟩ =
      { total := 5, queues := { unmoderated := 5, reported := 2, pending := 1 } } := by
  constructor
  · have h := moderation_queue_increment_by_status.1 ⟨5, ⟨5, 2, 1⟩⟩
      ⟨"u", "s", "NONE", [("FLAG", 2)]⟩ rfl
    simpa using h
  · exact moderation_queue_increment_by_status.2.2.2.1 ⟨5, ⟨5, 2, 1⟩⟩
      ⟨"u", "s", "REJECTED", []⟩ (by decide) (by decide) (by decide)

theorem modq_increment_invariant (q : CommentModerationQueue) (c : Comment)
    (h1 : q.total = q.queues.unmoderated)
    (h2 : q.queues.reported ≤ q.queues.unmoderated)
    (h3 : q.queues.pending ≤ q.queues.unmoderated) :
    (q.Increment c).total = (q.Increment c).queues.unmoderated ∧
      (q.Increment c).queues.reported ≤ (q.Increment c).queues.unmoderated ∧
      (q.Increment c).queues.pending ≤ (q.Increment c).queues.unmoderated := by
  unfold CommentModerationQueue.Increment
  split
  next => cases hf : c.flagged <;> simp [hf] <;> omega
  next => simp; omega
  next => simp; omega
  next => exact ⟨h1, h2, h3⟩

/-- C4: for every `CommentCounts` reachable from the zero aggregate by
comment increments and merges, `moderationQueue.total` equals
`queues.unmoderated`, and both `reported` and `pending` are bounded by
`unmoderated`. -/
theorem moderation_queue_invariants_reachable (s : StoryCommentCounts)
    (h : ReachableCounts s) :
    s.moderationQueue.total = s.moderationQueue.queues.unmoderated ∧
      s.moderationQueue.queues.reported ≤ s.moderationQueue.queues.unmoderated ∧
      s.moderationQueue.queues.pending ≤ s.moderationQueue.queues.unmoderated := by
  induction h with
  | zero => exact ⟨rfl, le_refl _, le_refl _⟩
  | increment c _ ih =>
    obtain ⟨h1, h2, h3⟩ := ih
    exact modq_increment_invariant _ c h1 h2 h3
  | merge _ _ iha ihb =>
    obtain ⟨a1, a2, a3⟩ := iha
    obtain ⟨b1, b2, b3⟩ := ihb
    simp [StoryCommentCounts.Merge]; omega

/-- Witness for C4 at a concrete reachable state: the zero aggregate
incremented with a flagged `NONE` comment and merged with itself. -/
theorem moderation_queue_invariants_reachable_witness :
    ReachableCounts ((zeroStoryCounts.Increment
        ⟨"u1", "s1", "NONE", [("FLAG", 1)]⟩).Merge
          (zeroStoryCounts.Increment ⟨"u1", "s1", "NONE", [("FLAG", 1)]⟩)) ∧
      (((zeroStoryCounts.Increment ⟨"u1", "s1", "NONE", [("FLAG", 1)]⟩).Merge
          (zeroStoryCounts.Increment
            ⟨"u1", "s1", "NONE", [("FLAG", 1)]⟩)).moderationQueue.total =
        ((zeroStoryCounts.Increment ⟨"u1", "s1", "NONE", [("FLAG", 1)]⟩).Merge
          (zeroStoryCounts.Increment
            ⟨"u1", "s1", "NONE", [("FLAG", 1)]⟩)).moderationQueue.queues.unmoderated) :=
  ⟨ReachableCounts.merge (ReachableCounts.increment _ ReachableCounts.zero)
      (ReachableCounts.increment _ ReachableCounts.zero),
    (moderation_queue_invariants_reachable _
      (ReachableCounts.merge (ReachableCounts.increment _ ReachableCounts.zero)
        (ReachableCounts.increment _ ReachableCounts.zero))).1⟩

theorem statusSum_increment_recognized (csc : CommentStatusCounts) (c : Comment)
    (h : recognizedStatus c.status = true) :
    statusSum (csc.Increment c) = statusSum csc + 1 := by
  simp only [recognizedStatus, List.contains_cons, List.contains_nil,
    Bool.or_false, Bool.or_eq_true, beq_iff_eq] at h
  rcases h with h | h | h | h | h <;>
    simp [CommentStatusCounts.Increment, statusSum, h] <;> ring

theorem statusSum_foldl (comments : List Comment) :
    ∀ init : CommentStatusCounts,
      (∀ c ∈ comments, recognizedStatus c.status = true) →
      statusSum (comments.foldl CommentStatusCounts.Increment init) =
        statusSum init + comments.length := by
  induction comments with
  | nil => intro init _; simp
  | cons c rest ih =>
    intro init h
    simp only [List.foldl_cons, List.length_cons]
    rw [ih _ fun x hx => h x (List.mem_cons_of_mem _ hx),
      statusSum_increment_recognized init c (h c (List.mem_cons_self _ _))]
    push_cast
    ring

/-- Counterexample to C5 as stated: a comment with an unrecognized status
string is folded but increments no status counter, so the sum of the five
counters falls short of the number of comments folded. -/
theorem status_sum_arbitrary_status_counterexample :
    statusSum ([(⟨"u1", "s1", "GARBAGE", []⟩ : Comment)].foldl
        CommentStatusCounts.Increment zeroStatusCounts) ≠
      (([(⟨"u1", "s1", "GARBAGE", []⟩ : Comment)].length : Int)) := by
  decide

/-- C5 (amended): for every sequence of comments whose status strings are
among the five recognized values, the sum of the five status counters of
the fold equals the number of comments folded. -/
theorem status_sum_recognized_equals_length (comments : List Comment)
    (h : ∀ c ∈ comments, recognizedStatus c.status = true) :
    statusSum (comments.foldl CommentStatusCounts.Increment zeroStatusCounts) =
      comments.length := by
  rw [statusSum_foldl comments zeroStatusCounts h]
  simp [statusSum, zeroStatusCounts]

/-- Witness for the amended C5 at three concrete comments. -/
theorem status_sum_recognized_equals_length_witness :
    (∀ c ∈ [(⟨"u1", "s1", "NONE", []⟩ : Comment),
        ⟨"u2", "s1", "APPROVED", []⟩, ⟨"u3", "s2", "PREMOD", []⟩],
      recognizedStatus c.status = true) ∧
    statusSum ([(⟨"u1", "s1", "NONE", []⟩ : Comment),
        ⟨"u2", "s1", "APPROVED", []⟩, ⟨"u3", "s2", "PREMOD", []⟩].foldl
          CommentStatusCounts.Increment zeroStatusCounts) =
      (([(⟨"u1", "s1", "NONE", []⟩ : Comment),
        ⟨"u2", "s1", "APPROVED", []⟩, ⟨"u3", "s2", "PREMOD", []⟩].length : Int)) :=
  ⟨by decide, status_sum_recognized_equals_length _ (by decide)⟩

/-- C6: merging two `CommentCounts` (as the site reducer does to roll
stories up into a site) is associative and commutative, so summing in any
order or grouping yields the same result. -/
theorem merge_assoc_comm :
    (∀ A B C : StoryCommentCounts, A.Merge (B.Merge C) = (A.Merge B).Merge C) ∧
    (∀ A B : StoryCommentCounts, A.Merge B = B.Merge A) := by
  constructor
  · intro A B C
    ext k <;> simp [StoryCommentCounts.Merge] <;> ring
  · intro A B
    ext k <;> simp [StoryCommentCounts.Merge] <;> ring

theorem flushBatchesGo_sizes {α : Type} (N : Nat) (us : List α) :
    ∀ acc : List α, acc.length < N →
      (flushBatchesGo N us acc).map List.length =
        List.replicate ((acc.length + us.length) / N) N ++
          (if (acc.length + us.length) % N = 0 then []
            else [(acc.length + us.length) % N]) := by
  induction us with
  | nil =>
    intro acc h
    cases acc with
    | nil => simp [flushBatchesGo]
    | cons a l =>
      have h' : l.length + 1 < N := by simpa using h
      simp [flushBatchesGo, Nat.div_eq_of_lt h', Nat.mod_eq_of_lt h']
  | cons u rest ih =>
    intro acc h
    by_cases hN : N ≤ (acc ++ [u]).length
    · have hlen : acc.length + 1 = N := by
        simp only [List.length_append, List.length_cons, List.length_nil] at hN
        omega
      have ihz := ih [] (by simp only [List.length_nil]; omega)
      simp only [List.length_nil, Nat.zero_add] at ihz
      simp only [flushBatchesGo, if_pos hN, List.map_cons, ihz]
      have h1 : acc.length + (u :: rest).length = rest.length + N := by
        simp only [List.length_cons]
        omega
      rw [h1, Nat.add_div_right _ (by omega), Nat.add_mod_right,
        List.replicate_succ, List.cons_append]
      congr 1
      simp only [List.length_append, List.length_cons, List.length_nil]
      omega
    · push_neg at hN
      simp only [flushBatchesGo, if_neg (not_le_of_lt hN)]
      have h2 : (acc ++ [u]).length + rest.length = acc.length + (u :: rest).length := by
        simp only [List.length_append, List.length_cons, List.length_nil]
        omega
      rw [ih (acc ++ [u]) hN, h2]

/-- C7: with a positive batch size `N` and `K` pending updates, the batch
writer emits a flush of exactly `N` updates each time the pending batch
reaches `N`, followed by one final flush of `K mod N` updates iff that
remainder is non-zero. -/
theorem flush_batches_sizes (N : Nat)
    (updates : List (String × StoryCommentCounts)) (h : 0 < N) :
    (flushBatches N updates).map List.length =
      List.replicate (updates.length / N) N ++
        (if updates.length % N = 0 then [] else [updates.length % N]) := by
  have hgo := flushBatchesGo_sizes N updates [] (by simpa using h)
  simpa [flushBatches] using hgo

/-- Witness for C7: batch size 2 with 5 pending story updates produces
three flushes of sizes 2, 2, 1. -/
theorem flush_batches_sizes_witness :
    0 < 2 ∧
      (flushBatches 2 [("s1", zeroStoryCounts), ("s2", zeroStoryCounts),
        ("s3", zeroStoryCounts), ("s4", zeroStoryCounts),
        ("s5", zeroStoryCounts)]).map List.length =
        List.replicate (5 / 2) 2 ++ (if 5 % 2 = 0 then [] else [5 % 2]) ∧
      List.replicate (5 / 2) 2 ++ (if 5 % 2 = 0 then [] else [5 % 2]) = [2, 2, 1] :=
  ⟨by decide, flush_batches_sizes 2 _ (by decide), by decide⟩

theorem decodeAll_isError_of_any (records : List (Except String Comment))
    (h : records.any isDecodeError = true) :
    ∃ e, decodeAll records = .error e := by
  induction records with
  | nil => simp at h
  | cons r rest ih =>
    cases r with
    | error e => exact ⟨e, rfl⟩
    | ok c =>
      simp only [List.any_cons, isDecodeError, Bool.false_or] at h
      obtain ⟨e, he⟩ := ih h
      exact ⟨e, by simp [decodeAll, he]⟩

/-- C8: for every scan pass — story scan and user scan alike — if any
record fails to decode, the pass returns an error and performs no writes
at all: in both passes all decoding happens before the write phase, so
nothing is partially flushed. -/
theorem process_scan_decode_error_aborts :
    (∀ (records : List (Except String Comment)) (cursorErr : Option String)
        (N : Nat) (dryRun : Bool), records.any isDecodeError = true →
      (processStoriesModel records cursorErr N dryRun).1 = [] ∧
        (processStoriesModel records cursorErr N dryRun).2.isSome = true) ∧
    (∀ (records : List (Except String Comment)) (cursorErr : Option String)
        (N : Nat) (dryRun : Bool), records.any isDecodeError = true →
      (processUsersModel records cursorErr N dryRun).1 = [] ∧
        (processUsersModel records cursorErr N dryRun).2.isSome = true) := by
  constructor
  · intro records cursorErr N dryRun h
    obtain ⟨e, he⟩ := decodeAll_isError_of_any records h
    simp [processStoriesModel, he]
  · intro records cursorErr N dryRun h
    obtain ⟨e, he⟩ := decodeAll_isError_of_any records h
    simp [processUsersModel, he]

/-- Witness for C8: both scan passes at a concrete stream with a failing
record. -/
theorem process_scan_decode_error_aborts_witness :
    sampleRecords.any isDecodeError = true ∧
      ((processStoriesModel sampleRecords none 2 false).1 = [] ∧
        (processStoriesModel sampleRecords none 2 false).2.isSome = true) ∧
      ((processUsersModel sampleRecords none 2 false).1 = [] ∧
        (processUsersModel sampleRecords none 2 false).2.isSome = true) :=
  ⟨by decide,
    process_scan_decode_error_aborts.1 sampleRecords none 2 false (by decide),
    process_scan_decode_error_aborts.2 sampleRecords none 2 false (by decide)⟩

/-- C9 fails on the code: `ProcessUsers` has no `cursor.Err()` check after
its read loop, so an iteration failure of the user-scan cursor is
swallowed and the pass reports success, while the identical failure in
`ProcessStories` is propagated.  This contradicts the spec's propagation
policy; the sibling passes both check `cursor.Err()`, so the omission is
a slip in the code. -/
theorem process_users_swallows_cursor_error :
    (processUsersModel [Except.ok (⟨"u1", "s1", "NONE", []⟩ : Comment)]
        (some "could not iterate on cursor") 3 false).2 = none ∧
      (processStoriesModel [Except.ok (⟨"u1", "s1", "NONE", []⟩ : Comment)]
        (some "could not iterate on cursor") 3 false).2 =
        some "could not iterate on cursor" := by
  constructor <;> rfl
